import Mathlib

/-!
Shallow embedding of the G1 write-barrier engine
(`src/src/hotspot/share/gc/g1/g1BarrierSet.cpp`).

State is modelled single-threadedly: the calling thread's buffers, the
shared buffers, the global SATB active flag and the card table are
collected in one record; locks and memory fences are no-ops in this
sequential model.  The queue types (`SATBMarkQueue`, `DirtyCardQueue`),
the card-table header and `byte_for` are not part of the source slice,
so those collaborators are modelled from the spec, as marked below.
-/

/-- Modelled from the spec: card values are one byte per card with three
distinct states clean / dirty / young-generation (the card-table header
defining the numeric constants is outside the source slice).  The values
are chosen distinct (`clean = -1`, `dirty = 0`, `young = 32`); all proofs
use only their distinctness. -/
def clean_card_val : Int := -1

/-- Card value `dirty`. -/
def dirty_card_val : Int := 0

/-- Card value `young-generation` (`G1CardTable::g1_young_card_val()`). -/
def g1_young_card_val : Int := 32

/-- Modelled from the spec: `byte_for(address)` maps a heap address to the
card covering it, deterministic, total and monotonic (the card-table
header is outside the source slice).  Cards are identified by index;
`cardWords` is the (arbitrary, positive) card size in words. -/
def cardWords : Nat := 64

/-- Card index covering address `a` (see `cardWords`). -/
def byte_for (a : Nat) : Nat := a / cardWords

/-- Embeds `MemRegion`: a contiguous span of heap words, as used by
`G1BarrierSet::invalidate`. -/
structure MemRegion where
  start : Nat
  word_size : Nat
deriving Repr, DecidableEq

/-- Embeds `MemRegion::is_empty()`. -/
def MemRegion.is_empty (mr : MemRegion) : Bool := mr.word_size = 0

/-- Embeds `MemRegion::last()`: the highest address in the region. -/
def MemRegion.last (mr : MemRegion) : Nat := mr.start + mr.word_size - 1

/-- The in-memory state the barrier engine acts on, seen from the calling
thread: the global SATB active flag, the calling thread's SATB buffer,
the shared SATB buffer, the calling thread's dirty-card buffer, the
shared dirty-card buffer, and the card table.  Object references and
card addresses are `Nat` (`0` is the null reference).  Buffers are
modelled from the spec as append-only sequences ("treat enqueue as
append"); the hand-off of full buffers is external and invisible at
this granularity. -/
@[ext]
structure BarrierState where
  satbActive : Bool
  satbLocal : List Nat
  satbShared : List Nat
  dcLocal : List Nat
  dcShared : List Nat
  cardTable : Nat → Int

namespace G1BarrierSet

/-- Embeds `G1BarrierSet::enqueue(oop pre_val)`: if the global SATB queue set is
inactive, return; else append `pre_val` to the calling thread's SATB
buffer when it is a Java thread, otherwise (under the shared lock) to
the shared SATB buffer.  The caller guarantees `pre_val` is non-null. -/
def enqueue (pre_val : Nat) (is_Java_thread : Bool) (s : BarrierState) :
    BarrierState :=
  if !s.satbActive then s
  else if is_Java_thread then { s with satbLocal := s.satbLocal ++ [pre_val] }
  else { s with satbShared := s.satbShared ++ [pre_val] }

/-- Embeds `G1BarrierSet::write_ref_array_pre_work(T* dst, size_t count)`: if the
SATB queue set is inactive return; else for each slot value read from
`dst[0..count)`, if non-null, decode and `enqueue`.  The slot contents
are the list `slots`; `decode` is the external
`CompressedOops::decode_not_null`. -/
def write_ref_array_pre_work (decode : Nat → Nat) (slots : List Nat)
    (is_Java_thread : Bool) (s : BarrierState) : BarrierState :=
  if !s.satbActive then s
  else slots.foldl
    (fun st v => if v ≠ 0 then enqueue (decode v) is_Java_thread st else st) s

/-- Embeds `G1BarrierSet::write_ref_array_pre(dst, count, dest_uninitialized)`:
run `write_ref_array_pre_work` unless `dest_uninitialized`. -/
def write_ref_array_pre (decode : Nat → Nat) (slots : List Nat)
    (dest_uninitialized : Bool) (is_Java_thread : Bool) (s : BarrierState) :
    BarrierState :=
  if !dest_uninitialized then write_ref_array_pre_work decode slots is_Java_thread s
  else s

/-- Embeds `G1BarrierSet::write_ref_field_post_slow(volatile jbyte* byte)`: after
a store-load fence (no-op here), if the card is not already dirty, set
it dirty and enqueue its address to the thread-local dirty-card buffer
(Java thread) or, under the shared lock, to the shared one.  The caller
guarantees the card is not young. -/
def write_ref_field_post_slow (byte : Nat) (is_Java_thread : Bool)
    (s : BarrierState) : BarrierState :=
  if s.cardTable byte ≠ dirty_card_val then
    let ct := fun c => if c = byte then dirty_card_val else s.cardTable c
    if is_Java_thread then
      { s with cardTable := ct, dcLocal := s.dcLocal ++ [byte] }
    else
      { s with cardTable := ct, dcShared := s.dcShared ++ [byte] }
  else s

/-- Modelled from the spec: the inline post-write fast path
(`g1BarrierSet.inline.hpp`, outside the source slice) reads the card for
the written field and calls `write_ref_field_post_slow` only when the
card is not young-generation. -/
def write_ref_field_post (byte : Nat) (is_Java_thread : Bool)
    (s : BarrierState) : BarrierState :=
  if s.cardTable byte ≠ g1_young_card_val then
    write_ref_field_post_slow byte is_Java_thread s
  else s

/-- One iteration of the main loop of `G1BarrierSet::invalidate`: skip a
young card; otherwise if the card is not dirty, set it dirty and
enqueue it (thread-local buffer for a Java thread, shared buffer under
lock otherwise). -/
def invalidateStep (is_Java_thread : Bool) (s : BarrierState) (byte : Nat) :
    BarrierState :=
  if s.cardTable byte = g1_young_card_val then s
  else if s.cardTable byte ≠ dirty_card_val then
    let ct := fun c => if c = byte then dirty_card_val else s.cardTable c
    if is_Java_thread then
      { s with cardTable := ct, dcLocal := s.dcLocal ++ [byte] }
    else
      { s with cardTable := ct, dcShared := s.dcShared ++ [byte] }
  else s

/-- Embeds `G1BarrierSet::invalidate(MemRegion mr)`: no-op on an empty region;
otherwise scan the cards from `byte_for(mr.start())` to
`byte_for(mr.last())` inclusive, first skipping the leading run of
young cards; if any card remains, issue one store-load fence (no-op
here) and run the main loop over the remaining cards. -/
def invalidate (mr : MemRegion) (is_Java_thread : Bool) (s : BarrierState) :
    BarrierState :=
  if mr.is_empty then s
  else
    let b := byte_for mr.start
    let lastb := byte_for mr.last
    let cards := List.range' b (lastb + 1 - b)
    let rest := cards.dropWhile (fun c => s.cardTable c = g1_young_card_val)
    if rest.isEmpty then s
    else rest.foldl (invalidateStep is_Java_thread) s

/-- Per-thread barrier state (`JavaThread`'s SATB queue and dirty-card
queue): each an active flag plus the current buffer. -/
structure G1ThreadState where
  satbQueueActive : Bool
  satbQueueBuf : List Nat
  dcQueueActive : Bool
  dcQueueBuf : List Nat
deriving Repr, DecidableEq

/-- Embeds `G1BarrierSet::on_thread_attach(JavaThread*)`: asserts (preconditions:
not at a safepoint, SATB queue inactive and empty, dirty-card queue
active), then activates the thread's SATB queue exactly when the
global SATB queue set is active. -/
def on_thread_attach (globalSatbActive : Bool) (t : G1ThreadState) :
    G1ThreadState :=
  if globalSatbActive then { t with satbQueueActive := true } else t

/-- A thread together with the two queue sets' completed-record lists,
the state acted on by `on_thread_detach`. -/
structure DetachState where
  thread : G1ThreadState
  satbCompleted : List Nat
  dcCompleted : List Nat
deriving Repr, DecidableEq

/-- Embeds `G1BarrierSet::on_thread_detach(JavaThread*)`: flush both of the
thread's queues.  Modelled from the spec: `PtrQueue::flush` (outside the
source slice) hands the buffer's contents to the owning queue set's
completed-buffer list and leaves the buffer empty; the base-class
card-table detach bookkeeping is external and touches neither queue. -/
def on_thread_detach (st : DetachState) : DetachState :=
  { thread := { st.thread with satbQueueBuf := [], dcQueueBuf := [] }
    satbCompleted := st.satbCompleted ++ st.thread.satbQueueBuf
    dcCompleted := st.dcCompleted ++ st.thread.dcQueueBuf }

end G1BarrierSet

/-- Predicate on barrier states: no SATB (pre-write) buffer, thread-local
or shared, contains the null reference. -/
def noNullSATB (s : BarrierState) : Prop :=
  0 ∉ s.satbLocal ∧ 0 ∉ s.satbShared

/-- Concrete SATB-active barrier state with empty buffers and an
all-clean card table, used to instantiate theorems at concrete inputs. -/
def stClean : BarrierState :=
  { satbActive := true, satbLocal := [], satbShared := [], dcLocal := [],
    dcShared := [], cardTable := fun _ => clean_card_val }

/-- Concrete SATB-inactive barrier state. -/
def stInactive : BarrierState := { stClean with satbActive := false }

/-- Concrete barrier state whose every card is young-generation. -/
def stYoung : BarrierState := { stClean with cardTable := fun _ => g1_young_card_val }

/-- Concrete barrier state whose card 0 is young-generation and whose
other cards are clean. -/
def stMixed : BarrierState :=
  { stClean with cardTable := fun c => if c = 0 then g1_young_card_val else clean_card_val }

/-- Concrete barrier state holding one non-null reference in each SATB
buffer. -/
def stFive : BarrierState := { stClean with satbLocal := [5], satbShared := [7] }

/-- Concrete two-card region: with `cardWords = 64`, words `0..127` cover
cards `0` and `1`. -/
def mrTwoCards : MemRegion := ⟨0, 128⟩

theorem clean_ne_young : clean_card_val ≠ g1_young_card_val := by decide

theorem clean_ne_dirty : clean_card_val ≠ dirty_card_val := by decide

theorem young_ne_dirty : g1_young_card_val ≠ dirty_card_val := by decide

/-- C1: for a non-null reference `r`, `G1BarrierSet::enqueue` appends `r`
to exactly one buffer — the calling mutator thread's SATB buffer, or the
shared SATB buffer for non-mutator threads — if and only if the global
SATB queue set is active; when it is inactive, the call mutates no
buffer at all. -/
theorem enqueue_appends_iff_active (r : Nat) (jt : Bool) (s : BarrierState)
    (hr : r ≠ 0) :
    (s.satbActive = false → G1BarrierSet.enqueue r jt s = s) ∧
    (s.satbActive = true → jt = true →
        G1BarrierSet.enqueue r jt s = { s with satbLocal := s.satbLocal ++ [r] }) ∧
    (s.satbActive = true → jt = false →
        G1BarrierSet.enqueue r jt s = { s with satbShared := s.satbShared ++ [r] }) := by
  unfold G1BarrierSet.enqueue
  refine ⟨fun h => by simp [h], fun h hj => by simp [h, hj], fun h hj => by simp [h, hj]⟩

/-- Witness for C1 at the concrete input `r = 1` on `stClean`. -/
theorem enqueue_appends_iff_active_witness :
    (1 : Nat) ≠ 0 ∧
    G1BarrierSet.enqueue 1 true stClean = { stClean with satbLocal := [1] } :=
  ⟨by decide, (enqueue_appends_iff_active 1 true stClean (by decide)).2.1 rfl rfl⟩

/-- C6: with `dest_uninitialized = true`, `write_ref_array_pre` returns
immediately: the result is the unchanged state and is independent of the
slot contents, for every count and buffer-activity state. -/
theorem write_ref_array_pre_uninitialized_skip (decode : Nat → Nat)
    (slots slots' : List Nat) (jt : Bool) (s : BarrierState) :
    G1BarrierSet.write_ref_array_pre decode slots true jt s = s ∧
    G1BarrierSet.write_ref_array_pre decode slots true jt s =
      G1BarrierSet.write_ref_array_pre decode slots' true jt s :=
  ⟨rfl, rfl⟩

/-- C10: with `dest_uninitialized = false` but the SATB queue set
inactive, `write_ref_array_pre` returns before the per-slot loop: the
state is unchanged and the result is independent of the slot
contents. -/
theorem write_ref_array_pre_inactive_noop (decode : Nat → Nat)
    (slots slots' : List Nat) (jt : Bool) (s : BarrierState)
    (h : s.satbActive = false) :
    G1BarrierSet.write_ref_array_pre decode slots false jt s = s ∧
    G1BarrierSet.write_ref_array_pre decode slots false jt s =
      G1BarrierSet.write_ref_array_pre decode slots' false jt s := by
  unfold G1BarrierSet.write_ref_array_pre G1BarrierSet.write_ref_array_pre_work
  simp [h]

/-- Witness for C10 on the concrete inactive state `stInactive`. -/
theorem write_ref_array_pre_inactive_noop_witness :
    stInactive.satbActive = false ∧
    G1BarrierSet.write_ref_array_pre (fun v => v) [3, 0, 4] false true stInactive =
      stInactive :=
  ⟨rfl, (write_ref_array_pre_inactive_noop (fun v => v) [3, 0, 4] [9] true
    stInactive rfl).1⟩

/-- C7: under the attach preconditions (SATB queue inactive and empty,
dirty-card queue active), `on_thread_attach` leaves the thread with its
SATB queue active exactly when the global SATB queue set is active, and
its SATB buffer empty in both cases. -/
theorem on_thread_attach_linearization (g : Bool) (t : G1BarrierSet.G1ThreadState)
    (h1 : t.satbQueueActive = false) (h2 : t.satbQueueBuf = [])
    (h3 : t.dcQueueActive = true) :
    (G1BarrierSet.on_thread_attach g t).satbQueueActive = g ∧
    (G1BarrierSet.on_thread_attach g t).satbQueueBuf = [] := by
  unfold G1BarrierSet.on_thread_attach
  cases g <;> simp [h1, h2]

/-- Witness for C7 at a concrete thread state attached while the global
flag is active. -/
theorem on_thread_attach_linearization_witness :
    (G1BarrierSet.on_thread_attach true ⟨false, [], true, [2]⟩).satbQueueActive = true ∧
    (G1BarrierSet.on_thread_attach true ⟨false, [], true, [2]⟩).satbQueueBuf = [] :=
  on_thread_attach_linearization true ⟨false, [], true, [2]⟩ rfl rfl rfl

/-- C8: after `on_thread_detach` both of the thread's buffers are empty
and every record they held has been handed off, in order and without
loss, to the corresponding queue set's completed-record list. -/
theorem on_thread_detach_flush (st : G1BarrierSet.DetachState) :
    (G1BarrierSet.on_thread_detach st).thread.satbQueueBuf = [] ∧
    (G1BarrierSet.on_thread_detach st).thread.dcQueueBuf = [] ∧
    (G1BarrierSet.on_thread_detach st).satbCompleted =
      st.satbCompleted ++ st.thread.satbQueueBuf ∧
    (G1BarrierSet.on_thread_detach st).dcCompleted =
      st.dcCompleted ++ st.thread.dcQueueBuf :=
  ⟨rfl, rfl, rfl, rfl⟩

theorem enqueue_inactive (r : Nat) (jt : Bool) (s : BarrierState)
    (h : s.satbActive = false) : G1BarrierSet.enqueue r jt s = s := by
  unfold G1BarrierSet.enqueue
  simp [h]

theorem enqueue_satbActive (r : Nat) (jt : Bool) (s : BarrierState) :
    (G1BarrierSet.enqueue r jt s).satbActive = s.satbActive := by
  unfold G1BarrierSet.enqueue
  split
  · rfl
  · split <;> rfl

theorem foldl_enqueue_inactive (jt : Bool) :
    ∀ (l : List Nat) (s : BarrierState), s.satbActive = false →
      l.foldl (fun st r => G1BarrierSet.enqueue r jt st) s = s
  | [], _, _ => rfl
  | r :: t, s, h => by
    simp only [List.foldl_cons, enqueue_inactive r jt s h]
    exact foldl_enqueue_inactive jt t s h

theorem foldl_enqueue_eq (decode : Nat → Nat) (jt : Bool) :
    ∀ (slots : List Nat) (s : BarrierState),
      slots.foldl
          (fun st v => if v ≠ 0 then G1BarrierSet.enqueue (decode v) jt st else st) s =
        ((slots.filter (fun v => v != 0)).map decode).foldl
          (fun st r => G1BarrierSet.enqueue r jt st) s
  | [], _ => rfl
  | v :: t, s => by
    by_cases hv : v = 0
    · simp only [List.foldl_cons, hv, List.filter_cons]
      simpa using foldl_enqueue_eq decode jt t s
    · simp only [List.foldl_cons, List.filter_cons, if_pos hv, hv]
      simpa [hv] using foldl_enqueue_eq decode jt t (G1BarrierSet.enqueue (decode v) jt s)

/-- C5: with `dest_uninitialized = false`, the array pre-write barrier is
exactly the fold of `enqueue` over the decoded non-null slot values read
from the destination: each slot is read, and exactly the non-null ones
are decoded and passed to `enqueue`. -/
theorem write_ref_array_pre_enqueues_nonnull (decode : Nat → Nat)
    (slots : List Nat) (jt : Bool) (s : BarrierState) :
    G1BarrierSet.write_ref_array_pre decode slots false jt s =
      ((slots.filter (fun v => v != 0)).map decode).foldl
        (fun st r => G1BarrierSet.enqueue r jt st) s := by
  unfold G1BarrierSet.write_ref_array_pre G1BarrierSet.write_ref_array_pre_work
  by_cases h : s.satbActive
  · simpa [h] using foldl_enqueue_eq decode jt slots s
  · have hb : s.satbActive = false := by simpa using h
    simp only [hb, Bool.not_false, if_pos, if_true]
    exact (foldl_enqueue_inactive jt _ s hb).symm

/-- C3: for a card whose state is not young, the post-write slow path
sets it dirty and enqueues its address exactly when it is not already
dirty (to the thread-local buffer for a mutator, to the shared buffer
otherwise), and the operation is idempotent: a second call on the same
card changes nothing further. -/
theorem write_ref_field_post_slow_idempotent (byte : Nat) (jt : Bool)
    (s : BarrierState) (h : s.cardTable byte ≠ g1_young_card_val) :
    (s.cardTable byte = dirty_card_val →
        G1BarrierSet.write_ref_field_post_slow byte jt s = s) ∧
    (s.cardTable byte ≠ dirty_card_val → jt = true →
        G1BarrierSet.write_ref_field_post_slow byte jt s =
          { s with
            cardTable := fun c => if c = byte then dirty_card_val else s.cardTable c,
            dcLocal := s.dcLocal ++ [byte] }) ∧
    (s.cardTable byte ≠ dirty_card_val → jt = false →
        G1BarrierSet.write_ref_field_post_slow byte jt s =
          { s with
            cardTable := fun c => if c = byte then dirty_card_val else s.cardTable c,
            dcShared := s.dcShared ++ [byte] }) ∧
    G1BarrierSet.write_ref_field_post_slow byte jt
        (G1BarrierSet.write_ref_field_post_slow byte jt s) =
      G1BarrierSet.write_ref_field_post_slow byte jt s := by
  refine ⟨?_, ?_, ?_, ?_⟩
  · intro hd
    unfold G1BarrierSet.write_ref_field_post_slow
    simp [hd]
  · intro hd hj
    unfold G1BarrierSet.write_ref_field_post_slow
    simp [hd, hj]
  · intro hd hj
    unfold G1BarrierSet.write_ref_field_post_slow
    simp [hd, hj]
  · by_cases hd : s.cardTable byte = dirty_card_val
    · unfold G1BarrierSet.write_ref_field_post_slow
      simp [hd]
    · cases jt <;>
      · unfold G1BarrierSet.write_ref_field_post_slow
        simp [hd]

/-- Witness for C3 on the concrete all-clean state `stClean` at card 3. -/
theorem write_ref_field_post_slow_idempotent_witness :
    stClean.cardTable 3 ≠ g1_young_card_val ∧
    G1BarrierSet.write_ref_field_post_slow 3 true
        (G1BarrierSet.write_ref_field_post_slow 3 true stClean) =
      G1BarrierSet.write_ref_field_post_slow 3 true stClean :=
  ⟨by decide, (write_ref_field_post_slow_idempotent 3 true stClean (by decide)).2.2.2⟩

theorem noNull_enqueue (r : Nat) (jt : Bool) (s : BarrierState)
    (hr : r ≠ 0) (hs : noNullSATB s) :
    noNullSATB (G1BarrierSet.enqueue r jt s) := by
  obtain ⟨h1, h2⟩ := hs
  unfold noNullSATB G1BarrierSet.enqueue
  split
  · exact ⟨h1, h2⟩
  · split
    · refine ⟨?_, h2⟩
      simp [List.mem_append, h1, Ne.symm hr]
    · refine ⟨h1, ?_⟩
      simp [List.mem_append, h2, Ne.symm hr]

theorem noNull_foldl_pre_work (decode : Nat → Nat) (jt : Bool)
    (hdec : ∀ v, v ≠ 0 → decode v ≠ 0) :
    ∀ (slots : List Nat) (s : BarrierState), noNullSATB s →
      noNullSATB (slots.foldl
        (fun st v => if v ≠ 0 then G1BarrierSet.enqueue (decode v) jt st else st) s)
  | [], _, hs => hs
  | v :: t, s, hs => by
    simp only [List.foldl_cons]
    by_cases hv : v = 0
    · simp only [hv, ne_eq, not_true_eq_false, if_false]
      exact noNull_foldl_pre_work decode jt hdec t s hs
    · simp only [if_pos hv]
      exact noNull_foldl_pre_work decode jt hdec t _
        (noNull_enqueue (decode v) jt s (hdec v hv) hs)

theorem write_ref_field_post_slow_satb_frame (b : Nat) (jt : Bool)
    (s : BarrierState) :
    (G1BarrierSet.write_ref_field_post_slow b jt s).satbLocal = s.satbLocal ∧
    (G1BarrierSet.write_ref_field_post_slow b jt s).satbShared = s.satbShared := by
  unfold G1BarrierSet.write_ref_field_post_slow
  split
  · split <;> exact ⟨rfl, rfl⟩
  · exact ⟨rfl, rfl⟩

theorem invalidateStep_satb_frame (jt : Bool) (s : BarrierState) (c : Nat) :
    (G1BarrierSet.invalidateStep jt s c).satbLocal = s.satbLocal ∧
    (G1BarrierSet.invalidateStep jt s c).satbShared = s.satbShared := by
  unfold G1BarrierSet.invalidateStep
  split
  · exact ⟨rfl, rfl⟩
  · split
    · split <;> exact ⟨rfl, rfl⟩
    · exact ⟨rfl, rfl⟩

theorem foldl_invalidateStep_satb_frame (jt : Bool) :
    ∀ (l : List Nat) (s : BarrierState),
      (l.foldl (G1BarrierSet.invalidateStep jt) s).satbLocal = s.satbLocal ∧
      (l.foldl (G1BarrierSet.invalidateStep jt) s).satbShared = s.satbShared
  | [], _ => ⟨rfl, rfl⟩
  | c :: t, s => by
    simp only [List.foldl_cons]
    obtain ⟨k1, k2⟩ := invalidateStep_satb_frame jt s c
    obtain ⟨m1, m2⟩ := foldl_invalidateStep_satb_frame jt t (G1BarrierSet.invalidateStep jt s c)
    exact ⟨m1.trans k1, m2.trans k2⟩

theorem invalidate_satb_frame (mr : MemRegion) (jt : Bool) (s : BarrierState) :
    (G1BarrierSet.invalidate mr jt s).satbLocal = s.satbLocal ∧
    (G1BarrierSet.invalidate mr jt s).satbShared = s.satbShared := by
  simp only [G1BarrierSet.invalidate]
  split
  · exact ⟨rfl, rfl⟩
  · split
    · exact ⟨rfl, rfl⟩
    · exact foldl_invalidateStep_satb_frame jt _ s

/-- C9: the no-null-reference invariant of the SATB buffers is preserved
by every barrier operation on the in-memory state: `enqueue` under its
non-null precondition, the array pre-write barrier given that decoding a
non-null stored value yields a non-null reference, and the dirty-card
operations (`write_ref_field_post_slow`, `invalidate`), which never touch
an SATB buffer. -/
theorem satb_no_null_invariant (jt : Bool) (s : BarrierState)
    (hs : noNullSATB s) :
    (∀ r, r ≠ 0 → noNullSATB (G1BarrierSet.enqueue r jt s)) ∧
    (∀ decode slots du, (∀ v, v ≠ 0 → decode v ≠ 0) →
        noNullSATB (G1BarrierSet.write_ref_array_pre decode slots du jt s)) ∧
    (∀ b, noNullSATB (G1BarrierSet.write_ref_field_post_slow b jt s)) ∧
    (∀ mr, noNullSATB (G1BarrierSet.invalidate mr jt s)) := by
  refine ⟨fun r hr => noNull_enqueue r jt s hr hs, ?_, ?_, ?_⟩
  · intro decode slots du hdec
    unfold G1BarrierSet.write_ref_array_pre G1BarrierSet.write_ref_array_pre_work
    cases du
    · simp only [Bool.not_false, if_true]
      split
      · exact hs
      · exact noNull_foldl_pre_work decode jt hdec slots s hs
    · exact hs
  · intro b
    obtain ⟨k1, k2⟩ := write_ref_field_post_slow_satb_frame b jt s
    unfold noNullSATB
    rw [k1, k2]
    exact hs
  · intro mr
    obtain ⟨k1, k2⟩ := invalidate_satb_frame mr jt s
    unfold noNullSATB
    rw [k1, k2]
    exact hs

/-- Witness for C9 on the concrete state `stFive` and reference `9`. -/
theorem satb_no_null_invariant_witness :
    noNullSATB (G1BarrierSet.enqueue 9 true stFive) :=
  (satb_no_null_invariant true stFive ⟨by decide, by decide⟩).1 9 (by decide)

/-- Counterexample for C4: invoking `write_ref_field_post_slow` directly
on a card marked young-generation (an input the function's own assertion
`slow path invoked without filtering` forbids) does change the card's
state to dirty and does enqueue a record for it, so the claim as stated
for the slow path is false: the young-card short circuit lives in the
external fast path, not in the slow path. -/
theorem write_ref_field_post_slow_young_cex :
    stYoung.cardTable 0 = g1_young_card_val ∧
    (G1BarrierSet.write_ref_field_post_slow 0 true stYoung).cardTable 0 =
      dirty_card_val ∧
    (G1BarrierSet.write_ref_field_post_slow 0 true stYoung).cardTable 0 ≠
      stYoung.cardTable 0 ∧
    (G1BarrierSet.write_ref_field_post_slow 0 true stYoung).dcLocal = [0] := by
  refine ⟨rfl, by decide, by decide, by decide⟩

theorem invalidateStep_young_frame (jt : Bool) (byte : Nat) (s : BarrierState)
    (c : Nat) (h : s.cardTable byte = g1_young_card_val) :
    (G1BarrierSet.invalidateStep jt s c).cardTable byte = g1_young_card_val ∧
    (G1BarrierSet.invalidateStep jt s c).dcLocal.count byte = s.dcLocal.count byte ∧
    (G1BarrierSet.invalidateStep jt s c).dcShared.count byte = s.dcShared.count byte := by
  by_cases hc : c = byte
  · subst hc
    unfold G1BarrierSet.invalidateStep
    simp [h]
  · unfold G1BarrierSet.invalidateStep
    split
    · exact ⟨h, rfl, rfl⟩
    · split
      · split <;>
        · refine ⟨?_, ?_, ?_⟩ <;>
            simp [hc, h, List.count_append, List.count_singleton, Ne.symm hc]
      · exact ⟨h, rfl, rfl⟩

theorem foldl_invalidateStep_young_frame (jt : Bool) (byte : Nat) :
    ∀ (l : List Nat) (s : BarrierState), s.cardTable byte = g1_young_card_val →
      (l.foldl (G1BarrierSet.invalidateStep jt) s).cardTable byte = g1_young_card_val ∧
      (l.foldl (G1BarrierSet.invalidateStep jt) s).dcLocal.count byte =
        s.dcLocal.count byte ∧
      (l.foldl (G1BarrierSet.invalidateStep jt) s).dcShared.count byte =
        s.dcShared.count byte
  | [], _, h => ⟨h, rfl, rfl⟩
  | c :: t, s, h => by
    simp only [List.foldl_cons]
    obtain ⟨k1, k2, k3⟩ := invalidateStep_young_frame jt byte s c h
    obtain ⟨m1, m2, m3⟩ :=
      foldl_invalidateStep_young_frame jt byte t (G1BarrierSet.invalidateStep jt s c) k1
    exact ⟨m1, m2.trans k2, m3.trans k3⟩

/-- C4 (amended): for a card marked young-generation, the post-write
barrier — whose fast path filters young cards before reaching the slow
path — leaves the whole state unchanged, and `invalidate` on any region
never changes that card's state and never enqueues a record for it. -/
theorem young_card_short_circuit (byte : Nat) (jt : Bool) (s : BarrierState)
    (mr : MemRegion) (hy : s.cardTable byte = g1_young_card_val) :
    G1BarrierSet.write_ref_field_post byte jt s = s ∧
    (G1BarrierSet.invalidate mr jt s).cardTable byte = s.cardTable byte ∧
    (G1BarrierSet.invalidate mr jt s).dcLocal.count byte = s.dcLocal.count byte ∧
    (G1BarrierSet.invalidate mr jt s).dcShared.count byte = s.dcShared.count byte := by
  refine ⟨?_, ?_⟩
  · unfold G1BarrierSet.write_ref_field_post
    simp [hy]
  · simp only [G1BarrierSet.invalidate]
    split
    · exact ⟨rfl, rfl, rfl⟩
    · split
      · exact ⟨rfl, rfl, rfl⟩
      · obtain ⟨k1, k2, k3⟩ := foldl_invalidateStep_young_frame jt byte _ s hy
        exact ⟨k1.trans hy.symm, k2, k3⟩

/-- Witness for C4 on the concrete all-young state `stYoung`, card 0,
with the two-card region `mrTwoCards`. -/
theorem young_card_short_circuit_witness :
    stYoung.cardTable 0 = g1_young_card_val ∧
    G1BarrierSet.write_ref_field_post 0 true stYoung = stYoung ∧
    (G1BarrierSet.invalidate mrTwoCards true stYoung).cardTable 0 =
      stYoung.cardTable 0 := by
  have h := young_card_short_circuit 0 true stYoung mrTwoCards rfl
  exact ⟨rfl, h.1, h.2.1⟩

theorem dropWhile_append_of_all (p : Nat → Bool) :
    ∀ (l1 l2 : List Nat), (∀ a ∈ l1, p a = true) →
      (l1 ++ l2).dropWhile p = l2.dropWhile p
  | [], _, _ => rfl
  | a :: t, l2, h => by
    have ha : p a = true := h a (List.mem_cons_self a t)
    rw [List.cons_append, List.dropWhile_cons, if_pos ha]
    exact dropWhile_append_of_all p t l2 (fun x hx => h x (List.mem_cons_of_mem a hx))

theorem foldl_invalidateStep_clean (jt : Bool) :
    ∀ (l : List Nat) (s : BarrierState), l.Nodup →
      (∀ c ∈ l, s.cardTable c = clean_card_val) →
      l.foldl (G1BarrierSet.invalidateStep jt) s =
        { s with
          cardTable := fun c => if c ∈ l then dirty_card_val else s.cardTable c,
          dcLocal := if jt then s.dcLocal ++ l else s.dcLocal,
          dcShared := if jt then s.dcShared else s.dcShared ++ l }
  | [], s, _, _ => by
    cases jt <;> (ext c <;> simp)
  | a :: t, s, hnd, hcl => by
    obtain ⟨hat, hndt⟩ := List.nodup_cons.mp hnd
    have ha : s.cardTable a = clean_card_val := hcl a (List.mem_cons_self a t)
    have hstep : G1BarrierSet.invalidateStep jt s a =
        { s with
          cardTable := fun c => if c = a then dirty_card_val else s.cardTable c,
          dcLocal := if jt then s.dcLocal ++ [a] else s.dcLocal,
          dcShared := if jt then s.dcShared else s.dcShared ++ [a] } := by
      unfold G1BarrierSet.invalidateStep
      cases jt <;> simp [ha, clean_ne_young, clean_ne_dirty]
    have hclt : ∀ c ∈ t,
        (G1BarrierSet.invalidateStep jt s a).cardTable c = clean_card_val := by
      intro c hc
      have hca : c ≠ a := fun e => hat (e ▸ hc)
      rw [hstep]
      simpa [hca] using hcl c (List.mem_cons_of_mem a hc)
    have ih := foldl_invalidateStep_clean jt t (G1BarrierSet.invalidateStep jt s a)
      hndt hclt
    simp only [List.foldl_cons]
    rw [ih, hstep]
    refine BarrierState.ext rfl rfl rfl ?_ ?_ ?_
    · cases jt <;> simp [List.append_assoc]
    · cases jt <;> simp [List.append_assoc]
    · funext c
      by_cases hca : c = a <;> by_cases hct : c ∈ t <;>
        simp [List.mem_cons, hca, hct]

/-- C2: for a region whose cards split into a leading run of `p`
young-generation cards followed by `q` clean cards, `invalidate` is a
complete no-op on an empty region; it is also a no-op when every card is
young (`q = 0`); and otherwise it leaves the young cards unchanged, sets
every suffix card dirty, and enqueues exactly one record per suffix card
— to the calling mutator thread's dirty-card buffer, or to the shared
buffer under its lock for non-mutator threads. -/
theorem invalidate_range_coverage (mr : MemRegion) (jt : Bool)
    (s : BarrierState) (p q : Nat)
    (hn : p + q = byte_for mr.last + 1 - byte_for mr.start)
    (hp : ∀ c ∈ List.range' (byte_for mr.start) p,
        s.cardTable c = g1_young_card_val)
    (hq : ∀ c ∈ List.range' (byte_for mr.start + p) q,
        s.cardTable c = clean_card_val) :
    (mr.is_empty = true → G1BarrierSet.invalidate mr jt s = s) ∧
    (q = 0 → G1BarrierSet.invalidate mr jt s = s) ∧
    (mr.is_empty = false → 0 < q →
      G1BarrierSet.invalidate mr jt s =
        { s with
          cardTable := fun c =>
            if c ∈ List.range' (byte_for mr.start + p) q then dirty_card_val
            else s.cardTable c,
          dcLocal :=
            if jt then s.dcLocal ++ List.range' (byte_for mr.start + p) q
            else s.dcLocal,
          dcShared :=
            if jt then s.dcShared
            else s.dcShared ++ List.range' (byte_for mr.start + p) q }) := by
  have hcards : List.range' (byte_for mr.start)
      (byte_for mr.last + 1 - byte_for mr.start) =
      List.range' (byte_for mr.start) p ++
        List.range' (byte_for mr.start + p) q := by
    rw [List.range'_append_1, Nat.add_comm q p, hn]
  have hdropP : ∀ a ∈ List.range' (byte_for mr.start) p,
      (fun c => decide (s.cardTable c = g1_young_card_val)) a = true :=
    fun a ha => decide_eq_true (hp a ha)
  refine ⟨fun he => by simp [G1BarrierSet.invalidate, he], ?_, ?_⟩
  · intro hq0
    subst hq0
    by_cases he : mr.is_empty
    · simp [G1BarrierSet.invalidate, he]
    · have hcp : List.range' (byte_for mr.start)
          (byte_for mr.last + 1 - byte_for mr.start) =
          List.range' (byte_for mr.start) p := by
        rw [← hn]
        simp
      have hrest : (List.range' (byte_for mr.start) p).dropWhile
          (fun c => decide (s.cardTable c = g1_young_card_val)) = [] :=
        List.dropWhile_eq_nil_iff.mpr hdropP
      simp [G1BarrierSet.invalidate, he, hcp, hrest]
  · intro he hq0
    obtain ⟨q', rfl⟩ : ∃ q', q = q' + 1 := ⟨q - 1, by omega⟩
    have hhead : s.cardTable (byte_for mr.start + p) = clean_card_val :=
      hq _ (List.mem_range'_1.mpr ⟨Nat.le_refl _, by omega⟩)
    have hpredhead :
        decide (s.cardTable (byte_for mr.start + p) = g1_young_card_val) = false := by
      simp [hhead, clean_ne_young]
    simp only [G1BarrierSet.invalidate, he, Bool.false_eq_true, if_false]
    rw [hcards, dropWhile_append_of_all _ _ _ hdropP, List.range'_succ]
    simp only [List.dropWhile_cons, hpredhead, Bool.false_eq_true, if_false,
      List.isEmpty_cons]
    rw [← List.range'_succ]
    exact foldl_invalidateStep_clean jt _ s (List.nodup_range' _ _) hq

/-- Witness for C2 on the concrete state `stMixed` (card 0 young, card 1
clean) and the two-card region `mrTwoCards`, with `p = q = 1`. -/
theorem invalidate_range_coverage_witness :
    (G1BarrierSet.invalidate mrTwoCards true stMixed).cardTable 1 =
      dirty_card_val ∧
    (G1BarrierSet.invalidate mrTwoCards true stMixed).cardTable 0 =
      g1_young_card_val ∧
    (G1BarrierSet.invalidate mrTwoCards true stMixed).dcLocal = [1] := by
  have h := (invalidate_range_coverage mrTwoCards true stMixed 1 1 (by decide)
    (by decide) (by decide)).2.2 rfl (by decide)
  rw [h]
  refine ⟨by decide, by decide, by decide⟩
